import Mathlib

/-!
# Verification of the chess GUI's move-selection core (src/chess.py)

This development embeds the interactive move-selection state machine,
coordinate-translation layer, move builder and status derivation of
`src/chess.py` and proves the spec's testable properties about them.

The chess-rules engine (the `python-chess` library) is an external
collaborator: it is modelled as an abstract structure `Engine Pos` of the
operations the GUI consumes — piece lookup, side to move, legal-move
enumeration, move application, and the three terminal/check queries.  The
few library functions whose concrete behaviour the GUI logic relies on
(`chess.square`, `chess.square_rank`, `chess.Move.from_uci` on a pair of
square names) are embedded directly.
-/

namespace ChessUI

/-- Piece colours, mirroring `chess.WHITE` / `chess.BLACK`. -/
inductive Color where
  | white
  | black
deriving DecidableEq

/-- The other colour. -/
def Color.opposite : Color → Color
  | Color.white => Color.black
  | Color.black => Color.white

/-- Piece kinds, mirroring `chess.PAWN`, `chess.KNIGHT`, .... -/
inductive PieceType where
  | pawn
  | knight
  | bishop
  | rook
  | queen
  | king
deriving DecidableEq

/-- A piece as returned by `board.piece_at`, mirroring `chess.Piece`:
a piece kind together with a colour. -/
structure Piece where
  pieceType : PieceType
  color : Color
deriving DecidableEq

/-- Embeds `chess.square(file_index, rank_index) = rank_index * 8 + file_index`. -/
def square (fileIndex rankIndex : Nat) : Nat := 8 * rankIndex + fileIndex

/-- Embeds `chess.square_file(sq) = sq & 7`, written as `% 8`. -/
def square_file (sq : Nat) : Nat := sq % 8

/-- Embeds `chess.square_rank(sq) = sq >> 3`, written as `/ 8`. -/
def square_rank (sq : Nat) : Nat := sq / 8

/-- A move as built by `chess.Move.from_uci`: source square, target square,
and an optional promotion piece kind. -/
structure Move where
  fromSquare : Nat
  toSquare : Nat
  promotion : Option PieceType
deriving DecidableEq

/-- The rules-engine collaborator (a `python-chess` `Board`), abstracted as
the operations the GUI layer consumes, over an arbitrary type `Pos` of
engine positions.  `push` returns the position after applying a move. -/
structure Engine (Pos : Type) where
  pieceAt : Pos → Nat → Option Piece
  turn : Pos → Color
  legalMoves : Pos → List Move
  push : Pos → Move → Pos
  isCheckmate : Pos → Bool
  isStalemate : Pos → Bool
  isCheck : Pos → Bool

/-- A screen-grid cell `(col, row)`, row 0 at the visual top. -/
abbrev Cell := Nat × Nat

/-- Computes `chess.square(col, 7 - row)`: the engine square index the code computes
for a screen cell (src/chess.py lines 73 and 117/122). -/
def cellToSquare (col row : Nat) : Nat := square col (7 - row)

/-- Modelled from the spec: `square_id_to_cell`, the inverse mapping from an
engine square id back to a screen cell, which the spec lists as a
CoordinateMapper operation used for rendering but which has no named
function in src/chess.py.  Per the spec it inverts
`engine_file = column`, `engine_rank = 7 - row`. -/
def squareIdToCell (sq : Nat) : Cell := (square_file sq, 7 - square_rank sq)

/-- Embeds `chess.Move.from_uci` applied to the concatenation of two in-bounds
square names (with an optional promotion suffix): parsing succeeds and
yields the corresponding move unless the two squares are equal, in which
case python-chess raises `InvalidMoveError`, a subclass of `ValueError`. -/
def moveFromSquares (fromSq toSq : Nat) (promo : Option PieceType) : Option Move :=
  if fromSq = toSq then none else some ⟨fromSq, toSq, promo⟩

/-- The exceptions that can arise inside the second-click handler:
`valueError` from `chess.Move.from_uci` (caught by the handler's
`except ValueError: pass`), and `attributeError` from reading
`.piece_type` off a `None` returned by `piece_at` (not caught). -/
inductive SecErr where
  | valueError
  | attributeError
deriving DecidableEq

/-- Move construction, src/chess.py lines 127-133: parse the concatenated
UCI square pair; then, if `piece_at(move.from_square).piece_type` is a pawn
and `square_rank(move.to_square)` is 7 or 0, append a queen-promotion
suffix and re-parse.  `lookup` is `game_board.piece_at`; a `None` there
makes the attribute access on line 130 raise `AttributeError`. -/
def buildMove (lookup : Nat → Option Piece) (oSq dSq : Nat) : Except SecErr Move :=
  match moveFromSquares oSq dSq none with
  | none => Except.error SecErr.valueError
  | some move =>
    match lookup move.fromSquare with
    | none => Except.error SecErr.attributeError
    | some pc =>
      if pc.pieceType = PieceType.pawn ∧
          (square_rank move.toSquare = 7 ∨ square_rank move.toSquare = 0) then
        match moveFromSquares oSq dSq (some PieceType.queen) with
        | none => Except.error SecErr.valueError
        | some m => Except.ok m
      else Except.ok move

/-- The `try` body of src/chess.py lines 127-136: build the candidate move,
then push it onto the board if it is in `game_board.legal_moves`; an
illegal candidate leaves the position unchanged. -/
def trySecondClick {Pos : Type} (E : Engine Pos) (p : Pos) (oSq dSq : Nat) :
    Except SecErr Pos :=
  match buildMove (E.pieceAt p) oSq dSq with
  | Except.error e => Except.error e
  | Except.ok move =>
    if move ∈ E.legalMoves p then Except.ok (E.push p move) else Except.ok p

/-- src/chess.py lines 126-139: the `try` / `except ValueError: pass`
wrapper around the second-click body.  A `ValueError` is swallowed, an
`AttributeError` propagates. -/
def secondClick {Pos : Type} (E : Engine Pos) (p : Pos) (oSq dSq : Nat) :
    Except SecErr Pos :=
  match trySecondClick E p oSq dSq with
  | Except.ok p2 => Except.ok p2
  | Except.error SecErr.valueError => Except.ok p
  | Except.error SecErr.attributeError => Except.error SecErr.attributeError

/-- The loop's mutable state: the engine position (`game_board`) and the
selection `selected_square_coords` (`none` is Python's `None`). -/
structure LoopState (Pos : Type) where
  pos : Pos
  selected : Option Cell

/-- src/chess.py lines 113-149: handling of a left click that landed inside
the board, given the clicked cell `(col, row)`.  With a selection present
this is the second click (build, validate, maybe push, then
`selected_square_coords = None` — which line is reached only when no
uncaught exception occurred); with no selection it is the first click,
selecting the cell exactly when it holds a piece of the side to move. -/
def handleBoardClick {Pos : Type} (E : Engine Pos) (s : LoopState Pos)
    (col row : Nat) : Except SecErr (LoopState Pos) :=
  match s.selected with
  | some (startCol, startRow) =>
    match secondClick E s.pos (cellToSquare startCol startRow) (cellToSquare col row) with
    | Except.ok p2 => Except.ok ⟨p2, none⟩
    | Except.error e => Except.error e
  | none =>
    match E.pieceAt s.pos (cellToSquare col row) with
    | some piece =>
      if piece.color = E.turn s.pos then Except.ok ⟨s.pos, some (col, row)⟩
      else Except.ok ⟨s.pos, none⟩
    | none => Except.ok ⟨s.pos, none⟩

/-- The constant `SQUARE_SIZE = 80` (src/chess.py line 6). -/
def SQUARE_SIZE : Int := 80

/-- src/chess.py lines 107-149: a left mouse-button-down at pixel `(x, y)`.
Python's `//` is floor division, hence `Int.fdiv`.  A click whose cell
falls outside `[0,7]` on either axis falls through with no state change. -/
def handleMouseDown {Pos : Type} (E : Engine Pos) (s : LoopState Pos)
    (x y : Int) : Except SecErr (LoopState Pos) :=
  let col := Int.fdiv x SQUARE_SIZE
  let row := Int.fdiv y SQUARE_SIZE
  if 0 ≤ col ∧ col < 8 ∧ 0 ≤ row ∧ row < 8 then
    handleBoardClick E s col.toNat row.toNat
  else Except.ok s

/-- The input events the loop inspects: `pygame.QUIT`,
`pygame.MOUSEBUTTONDOWN` (with its button number and pixel position), and
every other event kind (button release, motion, keyboard, ...), whose
payload the loop never reads. -/
inductive Event where
  | quit
  | mouseButtonDown (button : Nat) (x y : Int)
  | other
deriving DecidableEq

/-- src/chess.py lines 101-149: dispatch of one polled event.  Returns the
new loop state and the new `running` flag. -/
def handleEvent {Pos : Type} (E : Engine Pos) (s : LoopState Pos)
    (running : Bool) (e : Event) : Except SecErr (LoopState Pos × Bool) :=
  match e with
  | Event.quit => Except.ok (s, false)
  | Event.mouseButtonDown button x y =>
    if button = 1 then
      match handleMouseDown E s x y with
      | Except.ok s2 => Except.ok (s2, running)
      | Except.error e2 => Except.error e2
    else Except.ok (s, running)
  | Event.other => Except.ok (s, running)

/-- src/chess.py lines 164-171: the status line shown in the side panel,
derived per frame from the engine queries with the `if` / `elif` / `elif`
precedence checkmate, then stalemate, then check, then plain turn. -/
def statusText {Pos : Type} (E : Engine Pos) (p : Pos) : String :=
  let base := "Turn: " ++ (if E.turn p = Color.white then "White" else "Black")
  if E.isCheckmate p then
    "CHECKMATE! " ++ (if E.turn p = Color.white then "Black Wins" else "White Wins")
  else if E.isStalemate p then
    "STALEMATE (Draw)"
  else if E.isCheck p then
    base ++ " (CHECK)"
  else
    base

/-- The status-line fragment naming a winner. -/
def winnerText : Color → String
  | Color.white => "White Wins"
  | Color.black => "Black Wins"

/-- The plain-turn status line for a side to move. -/
def turnText (c : Color) : String :=
  "Turn: " ++ (if c = Color.white then "White" else "Black")

/-- The selection invariant: whenever a cell is selected, the engine square
it maps to holds a piece whose colour is the side to move. -/
def SelInv {Pos : Type} (E : Engine Pos) (s : LoopState Pos) : Prop :=
  ∀ c : Cell, s.selected = some c →
    ∃ pc, E.pieceAt s.pos (cellToSquare c.1 c.2) = some pc ∧
      pc.color = E.turn s.pos

/-- The loop states reachable from a fresh position `init` with empty
selection, stepping through `handleEvent` along successfully handled
events. -/
inductive Reachable {Pos : Type} (E : Engine Pos) (init : Pos) :
    LoopState Pos → Prop where
  | start : Reachable E init (LoopState.mk init none)
  | step (s : LoopState Pos) (running r2 : Bool) (e : Event) (s2 : LoopState Pos) :
      Reachable E init s → handleEvent E s running e = Except.ok (s2, r2) →
      Reachable E init s2

/-- A small concrete instantiation of the engine contract, used to exercise
the theorems on closed inputs.  Positions are natural numbers: position 0
has white to move, white pawns on engine squares 8-15 (rank index 1), and
the single legal move 12 → 28 (e2e4); any push leads to position 1, where
black is to move.  Positions 2, 3 and 4 flag checkmate, stalemate and
check respectively. -/
def toyEngine : Engine Nat :=
  Engine.mk
    (fun p sq =>
      if p = 0 ∧ 8 ≤ sq ∧ sq ≤ 15 then some (Piece.mk PieceType.pawn Color.white)
      else none)
    (fun p => if p = 0 then Color.white else Color.black)
    (fun p => if p = 0 then [Move.mk 12 28 none] else [])
    (fun _ _ => 1)
    (fun p => p == 2)
    (fun p => p == 3)
    (fun p => p == 4)

/-- A board snapshot holding a single white pawn on engine square 56 (a8). -/
def pawnAtA8 : Nat → Option Piece :=
  fun sq => if sq = 56 then some (Piece.mk PieceType.pawn Color.white) else none

/-- A board snapshot holding a single white pawn on engine square 48 (a7). -/
def pawnAtA7 : Nat → Option Piece :=
  fun sq => if sq = 48 then some (Piece.mk PieceType.pawn Color.white) else none

/-- Helper: `buildMove` can only raise `AttributeError` when the origin square is
empty. -/
theorem buildMove_no_attr (lookup : Nat → Option Piece) (oSq dSq : Nat)
    (pc : Piece) (hpc : lookup oSq = some pc) :
    buildMove lookup oSq dSq ≠ Except.error SecErr.attributeError := by
  intro hcon
  by_cases hod : oSq = dSq
  · simp only [buildMove, moveFromSquares, if_pos hod] at hcon
    exact SecErr.noConfusion (Except.error.inj hcon)
  · simp only [buildMove, moveFromSquares, if_neg hod, hpc] at hcon
    split at hcon <;> exact Except.noConfusion hcon

/-- As long as the origin square holds a piece, the second-click handler
never raises: the only uncaught exception, `AttributeError`, requires
`piece_at` to return `None` at the origin. -/
theorem secondClick_isOk {Pos : Type} (E : Engine Pos) (p : Pos) (oSq dSq : Nat)
    (pc : Piece) (hpc : E.pieceAt p oSq = some pc) :
    ∃ p2, secondClick E p oSq dSq = Except.ok p2 := by
  cases h3 : trySecondClick E p oSq dSq with
  | ok p2 => exact ⟨p2, by simp [secondClick, h3]⟩
  | error e2 =>
    cases e2 with
    | valueError => exact ⟨p, by simp [secondClick, h3]⟩
    | attributeError =>
      exfalso
      simp only [trySecondClick] at h3
      cases hb : buildMove (E.pieceAt p) oSq dSq with
      | ok m =>
        rw [hb] at h3
        dsimp only at h3
        split at h3 <;> exact Except.noConfusion h3
      | error e3 =>
        rw [hb] at h3
        have he3 : e3 = SecErr.attributeError := Except.error.inj h3
        subst he3
        exact buildMove_no_attr (E.pieceAt p) oSq dSq pc hpc hb

/-- A state with empty selection satisfies the selection invariant. -/
theorem selInv_initial {Pos : Type} (E : Engine Pos) (p : Pos) :
    SelInv E (LoopState.mk p none) := by
  intro c hc
  simp at hc

/-- Helper: `handleBoardClick` preserves the selection invariant. -/
theorem selInv_boardClick {Pos : Type} (E : Engine Pos) (s s2 : LoopState Pos)
    (col row : Nat) (hInv : SelInv E s)
    (h : handleBoardClick E s col row = Except.ok s2) : SelInv E s2 := by
  obtain ⟨p, sel⟩ := s
  cases sel with
  | some c =>
    obtain ⟨c1, c2⟩ := c
    simp only [handleBoardClick] at h
    cases h2 : secondClick E p (cellToSquare c1 c2) (cellToSquare col row) with
    | ok p2 =>
      rw [h2] at h
      injection h with h
      subst h
      exact selInv_initial E p2
    | error e =>
      rw [h2] at h
      exact absurd h (by simp)
  | none =>
    simp only [handleBoardClick] at h
    cases hpc : E.pieceAt p (cellToSquare col row) with
    | some pc =>
      simp only [hpc] at h
      by_cases hc : pc.color = E.turn p
      · rw [if_pos hc] at h
        injection h with h
        subst h
        intro c hcsel
        simp at hcsel
        subst hcsel
        exact ⟨pc, hpc, hc⟩
      · rw [if_neg hc] at h
        injection h with h
        subst h
        exact selInv_initial E p
    | none =>
      simp only [hpc] at h
      injection h with h
      subst h
      exact selInv_initial E p

/-- Helper: `handleMouseDown` preserves the selection invariant. -/
theorem selInv_mouseDown {Pos : Type} (E : Engine Pos) (s s2 : LoopState Pos)
    (x y : Int) (hInv : SelInv E s)
    (h : handleMouseDown E s x y = Except.ok s2) : SelInv E s2 := by
  simp only [handleMouseDown] at h
  split at h
  · exact selInv_boardClick E s s2 _ _ hInv h
  · injection h with h
    subst h
    exact hInv

/-- Helper: `handleEvent` preserves the selection invariant. -/
theorem selInv_step {Pos : Type} (E : Engine Pos) (s s2 : LoopState Pos)
    (running r2 : Bool) (e : Event) (hInv : SelInv E s)
    (hstep : handleEvent E s running e = Except.ok (s2, r2)) :
    SelInv E s2 := by
  cases e with
  | quit =>
    simp only [handleEvent] at hstep
    injection hstep with hstep
    rw [Prod.mk.injEq] at hstep
    rw [← hstep.1]
    exact hInv
  | mouseButtonDown b x y =>
    by_cases hb : b = 1
    · simp only [handleEvent, if_pos hb] at hstep
      cases h2 : handleMouseDown E s x y with
      | ok s3 =>
        rw [h2] at hstep
        injection hstep with hstep
        rw [Prod.mk.injEq] at hstep
        rw [← hstep.1]
        exact selInv_mouseDown E s s3 x y hInv h2
      | error e2 =>
        rw [h2] at hstep
        exact absurd hstep (by simp)
    · simp only [handleEvent, if_neg hb] at hstep
      injection hstep with hstep
      rw [Prod.mk.injEq] at hstep
      rw [← hstep.1]
      exact hInv
  | other =>
    simp only [handleEvent] at hstep
    injection hstep with hstep
    rw [Prod.mk.injEq] at hstep
    rw [← hstep.1]
    exact hInv

/-- Every reachable loop state satisfies the selection invariant: this is
what justifies assuming `SelInv` about a `Selected` state. -/
theorem reachable_selInv {Pos : Type} (E : Engine Pos) (init : Pos)
    (s : LoopState Pos) (h : Reachable E init s) : SelInv E s := by
  induction h with
  | start => exact selInv_initial E init
  | step s running r2 e s2 hr hstep ih => exact selInv_step E s s2 running r2 e ih hstep

/-- Claim C3: for all (column, row) in [0,7]×[0,7], mapping the cell to its
engine square id with `chess.square(col, 7 - row)` and back with the
spec's `square_id_to_cell` returns the original cell: the two directions
are exact inverses on that domain. -/
theorem coord_round_trip (col row : Nat) (hc : col ≤ 7) (hr : row ≤ 7) :
    squareIdToCell (cellToSquare col row) = (col, row) := by
  simp only [squareIdToCell, cellToSquare, square, square_file, square_rank]
  rw [Prod.mk.injEq]
  constructor <;> omega

/-- Witness for C3 at the concrete cell (3, 5). -/
theorem coord_round_trip_spot : squareIdToCell (cellToSquare 3 5) = (3, 5) :=
  coord_round_trip 3 5 (by decide) (by decide)

/-- Claim C4, counterexample: with a board snapshot holding a white pawn on
square 56 (a8, engine rank 7), building a move whose origin and destination
are both that square does not yield a queen-promotion move — construction
fails, because `chess.Move.from_uci` raises before the promotion logic is
reached.  This refutes "move construction itself is total and never fails
on these inputs". -/
theorem buildMove_fails_on_equal_squares :
    pawnAtA8 56 = some (Piece.mk PieceType.pawn Color.white) ∧
    square_rank 56 = 7 ∧
    buildMove pawnAtA8 56 56 = Except.error SecErr.valueError :=
  ⟨rfl, rfl, rfl⟩

/-- Claim C4 (amended): for every origin and every destination distinct
from it, if the piece occupying the origin in the board snapshot is a pawn
and the destination's engine rank is 7 or 0, the candidate move built is
constructed with promotion fixed to queen — never rook, bishop, knight, or
no promotion — and construction succeeds.  (When origin equals
destination, construction fails with a `ValueError` that the handler
catches and treats like an illegal move.) -/
theorem auto_queen_promotion (lookup : Nat → Option Piece) (oSq dSq : Nat)
    (pc : Piece) (hne : oSq ≠ dSq) (hp : lookup oSq = some pc)
    (hpawn : pc.pieceType = PieceType.pawn)
    (hrank : square_rank dSq = 7 ∨ square_rank dSq = 0) :
    buildMove lookup oSq dSq = Except.ok (Move.mk oSq dSq (some PieceType.queen)) := by
  simp [buildMove, moveFromSquares, hne, hp, hpawn, hrank]

/-- Witness for the amended C4: a white pawn on a7 moving to a8 yields the
queen-promotion candidate. -/
theorem auto_queen_promotion_spot :
    buildMove pawnAtA7 48 56 = Except.ok (Move.mk 48 56 (some PieceType.queen)) :=
  auto_queen_promotion pawnAtA7 48 56 (Piece.mk PieceType.pawn Color.white)
    (by decide) rfl rfl (Or.inl rfl)

/-- Claim C7: a click whose pixel coordinates integer-divide (by the square
edge length) to a column or row outside [0,7] is ignored: the selection
state and the board position are unchanged, and no candidate move is
built (the handler returns the input state before reaching MoveBuilder). -/
theorem out_of_bounds_click_ignored {Pos : Type} (E : Engine Pos)
    (s : LoopState Pos) (x y : Int)
    (h : Int.fdiv x SQUARE_SIZE < 0 ∨ 7 < Int.fdiv x SQUARE_SIZE ∨
      Int.fdiv y SQUARE_SIZE < 0 ∨ 7 < Int.fdiv y SQUARE_SIZE) :
    handleMouseDown E s x y = Except.ok s := by
  simp only [handleMouseDown]
  rw [if_neg]
  omega

/-- Witness for C7: a click at pixel (800, 0) — column 10, in the side
panel — leaves the state untouched. -/
theorem out_of_bounds_click_ignored_spot :
    handleMouseDown toyEngine (LoopState.mk 0 none) 800 0 =
      Except.ok (LoopState.mk 0 none) :=
  out_of_bounds_click_ignored toyEngine (LoopState.mk 0 none) 800 0 (by decide)

/-- Claim C10: only button-1 mouse-button-down events reach the selection
machinery; every other event (other buttons, releases, motion, keyboard,
and also quit) leaves the loop state — selection and board position —
unchanged. -/
theorem non_left_event_ignored {Pos : Type} (E : Engine Pos)
    (s : LoopState Pos) (running : Bool) (e : Event)
    (h : ∀ button x y, e = Event.mouseButtonDown button x y → button ≠ 1) :
    ∃ r, handleEvent E s running e = Except.ok (s, r) := by
  cases e with
  | quit => exact ⟨false, rfl⟩
  | mouseButtonDown b x y =>
    have hb : b ≠ 1 := h b x y rfl
    exact ⟨running, by simp [handleEvent, hb]⟩
  | other => exact ⟨running, rfl⟩

/-- Witness for C10: a middle-button (button 3) press changes nothing. -/
theorem non_left_event_ignored_spot :
    ∃ r, handleEvent toyEngine (LoopState.mk 0 none) true
      (Event.mouseButtonDown 3 100 100) = Except.ok (LoopState.mk 0 none, r) :=
  non_left_event_ignored toyEngine (LoopState.mk 0 none) true
    (Event.mouseButtonDown 3 100 100)
    (by intro b x y he; cases he; decide)

/-- Claim C5: the status line follows the precedence
checkmate > stalemate > check > plain-turn: a checkmated position reports
checkmate with the winner being the side opposite the side to move (never
merely check), stalemate is reported only when not checkmate, and check is
reported only when the position is neither. -/
theorem status_precedence {Pos : Type} (E : Engine Pos) (p : Pos) :
    (E.isCheckmate p = true →
      statusText E p = "CHECKMATE! " ++ winnerText (Color.opposite (E.turn p))) ∧
    (E.isCheckmate p = false → E.isStalemate p = true →
      statusText E p = "STALEMATE (Draw)") ∧
    (E.isCheckmate p = false → E.isStalemate p = false → E.isCheck p = true →
      statusText E p = turnText (E.turn p) ++ " (CHECK)") ∧
    (E.isCheckmate p = false → E.isStalemate p = false → E.isCheck p = false →
      statusText E p = turnText (E.turn p)) := by
  refine ⟨fun h1 => ?_, fun h1 h2 => ?_, fun h1 h2 h3 => ?_, fun h1 h2 h3 => ?_⟩
  · cases hE : E.turn p <;>
      simp [statusText, winnerText, Color.opposite, h1, hE]
  · simp [statusText, h1, h2]
  · cases hE : E.turn p <;>
      simp [statusText, turnText, h1, h2, h3, hE]
  · cases hE : E.turn p <;>
      simp [statusText, turnText, h1, h2, h3, hE]

/-- Witness for C5: at the toy engine's checkmate position (position 2,
black to move) the status is checkmate with white as winner. -/
theorem status_precedence_spot :
    statusText toyEngine 2 =
      "CHECKMATE! " ++ winnerText (Color.opposite (toyEngine.turn 2)) :=
  (status_precedence toyEngine 2).1 rfl

/-- Claim C1: from any `Selected(origin)` loop state satisfying the
selection invariant (which `reachable_selInv` shows holds in every
reachable state), any second click on an in-bounds cell — legal move,
illegal move, or the origin itself — ends with the selection cleared to
`Empty`; a selection never persists into the next input cycle. -/
theorem second_click_clears_selection {Pos : Type} (E : Engine Pos)
    (s : LoopState Pos) (hInv : SelInv E s) (c : Cell)
    (hsel : s.selected = some c) (col row : Nat) :
    ∃ p2, handleBoardClick E s col row = Except.ok (LoopState.mk p2 none) := by
  obtain ⟨pc, hpc, hcol⟩ := hInv c hsel
  obtain ⟨p, sel⟩ := s
  simp only at hsel
  subst hsel
  obtain ⟨c1, c2⟩ := c
  obtain ⟨p2, h2⟩ := secondClick_isOk E p (cellToSquare c1 c2) (cellToSquare col row) pc hpc
  exact ⟨p2, by simp [handleBoardClick, h2]⟩

/-- Witness for C1: with the pawn on cell (4, 6) selected, clicking cell
(0, 4) clears the selection. -/
theorem second_click_clears_selection_spot :
    ∃ p2, handleBoardClick toyEngine (LoopState.mk 0 (some (4, 6))) 0 4 =
      Except.ok (LoopState.mk p2 none) :=
  second_click_clears_selection toyEngine (LoopState.mk 0 (some (4, 6)))
    (by
      intro c hc
      simp only at hc
      injection hc with hc
      subst hc
      exact ⟨Piece.mk PieceType.pawn Color.white, rfl, rfl⟩)
    (4, 6) rfl 0 4

/-- Claim C2: a first click (empty selection) on an in-bounds cell enters
`Selected(cell)` if and only if the cell's mapped square holds a piece of
the side to move, queried from the engine at selection time; clicking an
empty cell or an opponent's piece leaves the state `Empty` with the
position untouched. -/
theorem first_click_selects_iff {Pos : Type} (E : Engine Pos) (p : Pos)
    (col row : Nat) :
    (∀ pc, E.pieceAt p (cellToSquare col row) = some pc →
      pc.color = E.turn p →
      handleBoardClick E (LoopState.mk p none) col row =
        Except.ok (LoopState.mk p (some (col, row)))) ∧
    (E.pieceAt p (cellToSquare col row) = none →
      handleBoardClick E (LoopState.mk p none) col row =
        Except.ok (LoopState.mk p none)) ∧
    (∀ pc, E.pieceAt p (cellToSquare col row) = some pc →
      pc.color ≠ E.turn p →
      handleBoardClick E (LoopState.mk p none) col row =
        Except.ok (LoopState.mk p none)) := by
  refine ⟨fun pc hpc hcol => ?_, fun hnone => ?_, fun pc hpc hcol => ?_⟩
  · simp [handleBoardClick, hpc, hcol]
  · simp [handleBoardClick, hnone]
  · simp [handleBoardClick, hpc, hcol]

/-- Witness for C2: on the toy start position, clicking cell (4, 6) — the
white pawn on e2 with white to move — selects it. -/
theorem first_click_selects_spot :
    handleBoardClick toyEngine (LoopState.mk 0 none) 4 6 =
      Except.ok (LoopState.mk 0 (some (4, 6))) :=
  (first_click_selects_iff toyEngine 0 4 6).1
    (Piece.mk PieceType.pawn Color.white) rfl rfl

/-- Claim C6: when the selection is on `origin` and the second click builds
a candidate move that is not in the engine's legal-move set, the move is
discarded silently: the position is unchanged (hence the side to move is
unchanged) and the selection is cleared. -/
theorem illegal_move_discarded {Pos : Type} (E : Engine Pos) (p : Pos)
    (origin : Cell) (col row : Nat) (m : Move)
    (hb : buildMove (E.pieceAt p) (cellToSquare origin.1 origin.2)
      (cellToSquare col row) = Except.ok m)
    (hil : m ∉ E.legalMoves p) :
    handleBoardClick E (LoopState.mk p (some origin)) col row =
      Except.ok (LoopState.mk p none) := by
  obtain ⟨c1, c2⟩ := origin
  simp only at hb
  simp [handleBoardClick, secondClick, trySecondClick, hb, hil]

/-- Witness for C6: with the pawn on cell (4, 6) selected, clicking cell
(0, 0) builds the (illegal) queen-promotion candidate 12 → 56, which is
discarded: position 0 is kept and the selection cleared. -/
theorem illegal_move_discarded_spot :
    handleBoardClick toyEngine (LoopState.mk 0 (some (4, 6))) 0 0 =
      Except.ok (LoopState.mk 0 none) :=
  illegal_move_discarded toyEngine 0 (4, 6) 0 0
    (Move.mk 12 56 (some PieceType.queen)) rfl (by decide)

/-- Claim C8: second-click handling is total on states satisfying the
selection invariant (every reachable state, by `reachable_selInv`): no
exception reaches the render/loop layer, and an origin/destination pair
that fails to parse into a move — which happens exactly when both map to
the same engine square — is treated identically to an illegal move:
discarded, position unchanged, selection reset to `Empty`. -/
theorem second_click_total {Pos : Type} (E : Engine Pos) (s : LoopState Pos)
    (hInv : SelInv E s) (c : Cell) (hsel : s.selected = some c)
    (col row : Nat) :
    (∃ s2, handleBoardClick E s col row = Except.ok s2) ∧
    (cellToSquare c.1 c.2 = cellToSquare col row →
      handleBoardClick E s col row = Except.ok (LoopState.mk s.pos none)) := by
  obtain ⟨pc, hpc, hcol⟩ := hInv c hsel
  obtain ⟨p, sel⟩ := s
  simp only at hsel hpc ⊢
  subst hsel
  obtain ⟨c1, c2⟩ := c
  constructor
  · obtain ⟨p2, h2⟩ :=
      secondClick_isOk E p (cellToSquare c1 c2) (cellToSquare col row) pc hpc
    exact ⟨LoopState.mk p2 none, by simp [handleBoardClick, h2]⟩
  · intro heq
    simp only at heq
    simp [handleBoardClick, secondClick, trySecondClick, buildMove,
      moveFromSquares, heq]

/-- Witness for C8: with the pawn on cell (4, 6) selected, clicking the
origin cell (4, 6) itself parses to the square pair 12 → 12, fails to
parse into a move, and is treated as illegal: position kept, selection
cleared. -/
theorem second_click_total_spot :
    (∃ s2, handleBoardClick toyEngine (LoopState.mk 0 (some (4, 6))) 4 6 =
      Except.ok s2) ∧
    handleBoardClick toyEngine (LoopState.mk 0 (some (4, 6))) 4 6 =
      Except.ok (LoopState.mk 0 none) :=
  (second_click_total toyEngine (LoopState.mk 0 (some (4, 6)))
    (by
      intro c hc
      simp only at hc
      injection hc with hc
      subst hc
      exact ⟨Piece.mk PieceType.pawn Color.white, rfl, rfl⟩)
    (4, 6) rfl 4 6).imp id (fun h => h rfl)

/-- Claim C9: from a fresh starting position (white pawn on e2 = square 12,
white to move, e2e4 legal, pushing flips the turn) with empty selection,
clicking cell (4, 6) — e2 — and then cell (4, 4) — e4 — applies the move
12 → 28 to the board, returns the selection to `Empty`, and flips the side
to move to black. -/
theorem e2e4_scenario {Pos : Type} (E : Engine Pos) (p : Pos)
    (hp : E.pieceAt p 12 = some (Piece.mk PieceType.pawn Color.white))
    (ht : E.turn p = Color.white)
    (hl : Move.mk 12 28 none ∈ E.legalMoves p)
    (hflip : ∀ m, E.turn (E.push p m) = Color.opposite (E.turn p)) :
    handleBoardClick E (LoopState.mk p none) 4 6 =
      Except.ok (LoopState.mk p (some (4, 6))) ∧
    handleBoardClick E (LoopState.mk p (some (4, 6))) 4 4 =
      Except.ok (LoopState.mk (E.push p (Move.mk 12 28 none)) none) ∧
    E.turn (E.push p (Move.mk 12 28 none)) = Color.black := by
  have h12 : cellToSquare 4 6 = 12 := rfl
  have h28 : cellToSquare 4 4 = 28 := rfl
  refine ⟨?_, ?_, ?_⟩
  · simp [handleBoardClick, h12, hp, ht]
  · simp [handleBoardClick, secondClick, trySecondClick, buildMove,
      moveFromSquares, h12, h28, hp, hl, square_rank]
  · rw [hflip, ht]
    rfl

/-- Witness for C9: the scenario on the toy start position. -/
theorem e2e4_scenario_spot :
    handleBoardClick toyEngine (LoopState.mk 0 none) 4 6 =
      Except.ok (LoopState.mk 0 (some (4, 6))) ∧
    handleBoardClick toyEngine (LoopState.mk 0 (some (4, 6))) 4 4 =
      Except.ok (LoopState.mk (toyEngine.push 0 (Move.mk 12 28 none)) none) ∧
    toyEngine.turn (toyEngine.push 0 (Move.mk 12 28 none)) = Color.black :=
  e2e4_scenario toyEngine 0 rfl rfl (by decide) (fun _ => rfl)

end ChessUI
